import Mathlib

/-!
Shallow embedding of the offline-caching service worker (`sw.js`) of the
Shine catalog application: the install / activate / fetch-intercept
lifecycle of the Offline Cache Controller.

Model:
* `Response` and `Request` carry the fields the worker inspects
  (numeric status, body; method, URL string, navigation mode).
* The browser's origin-scoped cache storage is an ordered association
  list of named buckets; each bucket is an ordered association list of
  URL-keyed stored responses (`cache.put` keys GET requests by URL).
* The network is a function from URL to `Option Response`
  (`none` = network failure: no response obtainable).
* Each handler is a pure state transformer on the storage; the
  fire-and-forget cache store in the fetch path is parameterised by a
  Boolean recording whether that asynchronous store succeeds.
* For the timing behaviour of `Promise.all` in the activate handler,
  promise outcomes are modelled as a settle time plus a
  fulfilled/rejected flag (`PSettle`).
-/

/-- A stored/network HTTP response: the worker only inspects the numeric
status; the body stands for the (cloned) payload. -/
structure Response where
  status : Nat
  body : String
deriving DecidableEq, Repr

/-- An intercepted request: the worker inspects `method`, the full `url`
string, and the navigation `mode`. -/
structure Request where
  method : String
  url : String
  mode : String
deriving DecidableEq, Repr

/-- One cache bucket: an ordered list of URL-keyed stored responses. -/
abbrev Bucket : Type := List (String × Response)

/-- The origin's cache storage: ordered list of (bucket name, bucket). -/
abbrev CacheStorage : Type := List (String × Bucket)

/-- `const CACHE_NAME = 'angaza-creatives-v1'`. -/
def CACHE_NAME : String := "angaza-creatives-v1"

/-- `const urlsToCache = [...]` — the seed asset list. -/
def urlsToCache : List String :=
  ["/", "/static/css/style.css", "/static/js/main.js", "/static/images/logo.jpeg"]

/-- JS `String.prototype.includes`: substring test on the full string. -/
def strIncludes (s pat : String) : Bool := decide (List.IsInfix pat.data s.data)

/-- JS `String.prototype.startsWith`: the string's first characters are
the pattern. -/
def strStarts (s pat : String) : Bool :=
  decide (s.data.take pat.data.length = pat.data)

/-- Lookup in one bucket by URL key (`cache.match` within a bucket):
first entry whose key equals the URL. -/
def bucketLookup (c : Bucket) (k : String) : Option Response :=
  (c.find? (fun p => p.1 = k)).map Prod.snd

/-- `cache.put`: overwrite the entry for the key in place; append when the
key is absent. -/
def bucketPut (c : Bucket) (k : String) (v : Response) : Bucket :=
  if c.any (fun p => p.1 = k) then
    c.map (fun p => if p.1 = k then (k, v) else p)
  else
    c ++ [(k, v)]

/-- The bucket names present in the storage (`caches.keys()`). -/
def cacheKeys (st : CacheStorage) : List String := st.map Prod.fst

/-- `caches.open(name)`: create-if-absent an empty bucket of that name. -/
def cachesOpen (st : CacheStorage) (name : String) : CacheStorage :=
  if st.any (fun b => b.1 = name) then st else st ++ [(name, [])]

/-- The bucket stored under a name (empty when absent). -/
def getBucket (st : CacheStorage) (name : String) : Bucket :=
  ((st.find? (fun b => b.1 = name)).map Prod.snd).getD []

/-- `caches.open(name)` followed by `cache.put(k, v)` on the opened
bucket. -/
def cachesPut (st : CacheStorage) (name k : String) (v : Response) : CacheStorage :=
  (cachesOpen st name).map (fun b => if b.1 = name then (name, bucketPut b.2 k v) else b)

/-- `caches.delete(name)`: remove every bucket of that name. -/
def cachesDelete (st : CacheStorage) (name : String) : CacheStorage :=
  st.filter (fun b => ¬ b.1 = name)

/-- `caches.match(request)`: search the buckets in order for an entry
keyed by the request URL. -/
def cachesMatch (st : CacheStorage) (k : String) : Option Response :=
  st.findSome? (fun b => bucketLookup b.2 k)

/-- One seed fetch as performed by `cache.addAll`: succeeds only when the
network yields a response with an ok status (`addAll` rejects on any
non-ok response). -/
def seedFetch (net : String → Option Response) (u : String) : Option Response :=
  (net u).bind (fun r => if 200 ≤ r.status ∧ r.status ≤ 299 then some r else none)

/-- The fetch stage of `cache.addAll` over a list of URLs: all the
responses, or `none` when any single fetch fails. -/
def seedFetchList (net : String → Option Response) : List String → Option (List (String × Response))
  | [] => some []
  | u :: rest =>
      match seedFetch net u, seedFetchList net rest with
      | some r, some l => some ((u, r) :: l)
      | _, _ => none

/-- The fetch stage of `cache.addAll(urlsToCache)`: all seed responses,
or `none` when any single seed fetch fails (the batch is atomic: on
failure nothing is added). -/
def seedFetchAll (net : String → Option Response) : Option (List (String × Response)) :=
  seedFetchList net urlsToCache

/-- Store a list of (url, response) pairs into a named bucket in order. -/
def cachesPutAll (st : CacheStorage) (name : String) : List (String × Response) → CacheStorage
  | [] => st
  | (k, v) :: rest => cachesPutAll (cachesPut st name k v) name rest

/-- The install handler's `waitUntil` promise before the trailing
`.catch`: `caches.open(CACHE_NAME).then(cache => cache.addAll(urlsToCache))`.
Returns whether the promise fulfilled, and the resulting storage. -/
def installAttempt (net : String → Option Response) (st : CacheStorage) :
    Bool × CacheStorage :=
  let st1 := cachesOpen st CACHE_NAME
  match seedFetchAll net with
  | some entries => (true, cachesPutAll st1 CACHE_NAME entries)
  | none => (false, st1)

/-- `onInstall`: the install handler including the `.catch(err => ...)`
that logs and swallows any failure, so the `waitUntil` promise always
fulfils. -/
def onInstall (net : String → Option Response) (st : CacheStorage) :
    Bool × CacheStorage :=
  let r := installAttempt net st
  (true, r.2)

/-- `onActivate` (state effect): for every known bucket name other than
`CACHE_NAME`, issue `caches.delete(name)` (the successful-deletion
semantics of the handler). -/
def onActivate (st : CacheStorage) : CacheStorage :=
  (cacheKeys st).foldl
    (fun acc name => if name ≠ CACHE_NAME then cachesDelete acc name else acc) st

/-- Outcome of the fetch handler: `bypassed` when the handler returns
without calling `respondWith` (non-GET or extension scheme), otherwise
`responded r` with `r = none` when the promise resolves with no
response. -/
inductive HandlerResult where
  | bypassed : HandlerResult
  | responded : Option Response → HandlerResult
deriving DecidableEq, Repr

/-- `onFetch`, parameterised by whether the fire-and-forget
`caches.open(...).then(cache => cache.put(...))` store succeeds
(`storeOk`): network-first, opportunistic store of 200 static-URL
responses, cache fallback with `/` fallback for navigations. -/
def onFetchStore (storeOk : Bool) (req : Request) (net : Option Response)
    (st : CacheStorage) : HandlerResult × CacheStorage :=
  if req.method ≠ "GET" then (.bypassed, st)
  else if strStarts req.url "chrome-extension://" then (.bypassed, st)
  else
    match net with
    | some resp =>
        if resp.status = 200 ∧ strIncludes req.url "/static/" then
          (.responded (some resp),
            if storeOk then cachesPut st CACHE_NAME req.url resp else st)
        else
          (.responded (some resp), st)
    | none =>
        match cachesMatch st req.url with
        | some r => (.responded (some r), st)
        | none =>
            if req.mode = "navigate" then (.responded (cachesMatch st "/"), st)
            else (.responded none, st)

/-- `onFetch` with the fire-and-forget store succeeding. -/
def onFetch (req : Request) (net : Option Response) (st : CacheStorage) :
    HandlerResult × CacheStorage :=
  onFetchStore true req net st

/-- A promise settlement: the time at which it settles and whether it
fulfilled (`ok = true`) or rejected. -/
structure PSettle where
  time : Nat
  ok : Bool
deriving DecidableEq, Repr

/-- `Promise.all` of two settlements: fulfils at the later time when both
fulfil; otherwise rejects at the earliest rejection. -/
def pAll2 (a b : PSettle) : PSettle :=
  if a.ok then
    (if b.ok then ⟨max a.time b.time, true⟩ else ⟨b.time, false⟩)
  else
    (if b.ok then ⟨a.time, false⟩ else ⟨min a.time b.time, false⟩)

/-- `Promise.all` of a list of settlements. -/
def promiseAll (l : List PSettle) : PSettle := l.foldr pAll2 ⟨0, true⟩

/-- Settlement of the activate handler's `waitUntil` promise:
`Promise.all(cacheNames.map(name => name !== CACHE_NAME ?
caches.delete(name) : undefined))`, where `del` gives each issued
deletion's settlement and the `undefined` branch is an already-fulfilled
value. -/
def activateSettle (st : CacheStorage) (del : String → PSettle) : PSettle :=
  promiseAll ((cacheKeys st).map
    (fun name => if name ≠ CACHE_NAME then del name else ⟨0, true⟩))

/-- Modelled from the spec: the URL's path component — the portion of
the URL string before the query string — used only to state that the
code's static test is not restricted to it. -/
def urlPath (url : String) : String := ⟨url.data.takeWhile (fun c => ¬ c = '?')⟩

/-- A network on which only the root document is reachable: every other
seed fetch fails. -/
def netRootOnly : String → Option Response :=
  fun u => if u = "/" then some ⟨200, "home"⟩ else none

/-- A network on which every seed asset is reachable with status 200. -/
def netSeedAll : String → Option Response := fun u =>
  if u = "/" then some ⟨200, "home"⟩
  else if u = "/static/css/style.css" then some ⟨200, "css"⟩
  else if u = "/static/js/main.js" then some ⟨200, "js"⟩
  else if u = "/static/images/logo.jpeg" then some ⟨200, "img"⟩
  else none

/-! ### Helper lemmas about buckets and the cache storage -/

theorem find?_map_put (k : String) (v : Response) (c : Bucket)
    (h : c.any (fun p => p.1 = k) = true) :
    (c.map (fun p => if p.1 = k then (k, v) else p)).find? (fun p => p.1 = k)
      = some (k, v) := by
  induction c with
  | nil => simp at h
  | cons hd tl ih =>
    by_cases hk : hd.1 = k
    · simp [hk]
    · simp only [List.any_cons, Bool.or_eq_true, decide_eq_true_eq] at h
      rcases h with h | h
      · exact absurd h hk
      · simpa [hk] using ih h

theorem bucketLookup_bucketPut_self (c : Bucket) (k : String) (v : Response) :
    bucketLookup (bucketPut c k v) k = some v := by
  unfold bucketPut
  by_cases h : c.any (fun p => p.1 = k) = true
  · rw [if_pos h, bucketLookup, find?_map_put k v c h]
    rfl
  · rw [if_neg h, bucketLookup, List.find?_append]
    have hnone : c.find? (fun p => decide (p.1 = k)) = none := by
      rw [List.find?_eq_none]
      intro x hx hpx
      exact h (List.any_eq_true.mpr ⟨x, hx, hpx⟩)
    simp [hnone]

theorem cachesOpen_any (st : CacheStorage) (name : String) :
    (cachesOpen st name).any (fun b => b.1 = name) = true := by
  unfold cachesOpen
  by_cases h : st.any (fun b => b.1 = name) = true
  · rw [if_pos h]; exact h
  · rw [if_neg h]
    simp [List.any_append]

theorem getBucket_map_put (name k : String) (v : Response) (l : CacheStorage)
    (h : l.any (fun b => b.1 = name) = true) :
    getBucket (l.map (fun b => if b.1 = name then (name, bucketPut b.2 k v) else b)) name
      = bucketPut (getBucket l name) k v := by
  induction l with
  | nil => simp at h
  | cons hd tl ih =>
    by_cases hn : hd.1 = name
    · simp [getBucket, hn]
    · simp only [List.any_cons, Bool.or_eq_true, decide_eq_true_eq] at h
      rcases h with h | h
      · exact absurd h hn
      · simpa [getBucket, hn] using ih h

theorem bucketLookup_cachesPut_self (st : CacheStorage) (name k : String) (v : Response) :
    bucketLookup (getBucket (cachesPut st name k v) name) k = some v := by
  unfold cachesPut
  rw [getBucket_map_put name k v _ (cachesOpen_any st name)]
  exact bucketLookup_bucketPut_self _ k v

theorem activate_fold_filter (names : List String) (acc : CacheStorage) :
    names.foldl (fun acc name => if name ≠ CACHE_NAME then cachesDelete acc name else acc) acc
      = acc.filter (fun b => decide (b.1 = CACHE_NAME ∨ ¬ b.1 ∈ names)) := by
  induction names generalizing acc with
  | nil => simp
  | cons n ns ih =>
    rw [List.foldl_cons]
    by_cases hn : n = CACHE_NAME
    · rw [if_neg (by simpa using hn), ih]
      refine List.filter_congr (fun b _ => ?_)
      by_cases hb : b.1 = CACHE_NAME <;> simp [hb, hn, List.mem_cons]
    · rw [if_pos (by simpa using hn), ih]
      unfold cachesDelete
      rw [List.filter_filter]
      refine List.filter_congr (fun b _ => ?_)
      have hcn : ¬ CACHE_NAME = n := fun h => hn h.symm
      by_cases hb : b.1 = CACHE_NAME
      · simp [hb, hcn, List.mem_cons]
      · by_cases hbn : b.1 = n <;> simp [hb, hbn, hn, List.mem_cons]

theorem onActivate_eq_filter (st : CacheStorage) :
    onActivate st = st.filter (fun b => b.1 = CACHE_NAME) := by
  unfold onActivate
  rw [activate_fold_filter]
  refine List.filter_congr (fun b hb => ?_)
  have hmem : b.1 ∈ cacheKeys st := List.mem_map.mpr ⟨b, hb, rfl⟩
  by_cases hbc : b.1 = CACHE_NAME <;> simp [hbc, hmem]

theorem seedFetchList_of_fail (net : String → Option Response) (urls : List String)
    (h : ∃ u ∈ urls, seedFetch net u = none) : seedFetchList net urls = none := by
  induction urls with
  | nil => simp at h
  | cons u rest ih =>
    rcases h with ⟨w, hw, hfail⟩
    rcases List.mem_cons.mp hw with rfl | hw'
    · simp [seedFetchList, hfail]
    · rw [seedFetchList, ih ⟨w, hw', hfail⟩]
      cases seedFetch net u <;> rfl

theorem promiseAll_fulfil (l : List PSettle) (h : ∀ o ∈ l, o.ok = true) :
    (promiseAll l).ok = true ∧ ∀ o ∈ l, o.time ≤ (promiseAll l).time := by
  induction l with
  | nil => simp [promiseAll]
  | cons hd tl ih =>
    have hhd : hd.ok = true := h hd (by simp)
    obtain ⟨htlok, htlle⟩ := ih (fun o ho => h o (List.mem_cons_of_mem hd ho))
    have hstep : promiseAll (hd :: tl) = ⟨max hd.time (promiseAll tl).time, true⟩ := by
      show pAll2 hd (promiseAll tl) = _
      rw [pAll2, if_pos hhd, if_pos htlok]
    refine ⟨by rw [hstep], fun o ho => ?_⟩
    rcases List.mem_cons.mp ho with rfl | ho'
    · rw [hstep]; exact le_max_left _ _
    · rw [hstep]; exact le_trans (htlle o ho') (le_max_right _ _)

theorem promiseAll_reject (l : List PSettle) (h : ∃ o ∈ l, o.ok = false) :
    (promiseAll l).ok = false := by
  induction l with
  | nil => simp at h
  | cons hd tl ih =>
    show (pAll2 hd (promiseAll tl)).ok = false
    rcases h with ⟨o, ho, hok⟩
    rcases List.mem_cons.mp ho with rfl | ho'
    · rw [pAll2, if_neg (by simp [hok])]
      by_cases ht : (promiseAll tl).ok = true
      · rw [if_pos ht]
      · rw [if_neg ht]
    · have := ih ⟨o, ho', hok⟩
      rw [pAll2]
      by_cases hh : hd.ok = true
      · rw [if_pos hh, if_neg (by simp [this])]
      · rw [if_neg hh]
        by_cases ht : (promiseAll tl).ok = true
        · rw [if_pos ht]
        · rw [if_neg ht]

/-! ### Claim theorems -/

/-- C1: after the activate phase completes, at most one cache bucket
exists and its name equals the current generation name: for every set of
pre-existing buckets (with distinct names), activation deletes exactly
the buckets whose name differs from `CACHE_NAME`, so no bucket of a
prior generation persists. -/
theorem activate_single_generation (st : CacheStorage)
    (h : (cacheKeys st).Nodup) :
    onActivate st = st.filter (fun b => b.1 = CACHE_NAME) ∧
    (∀ b ∈ onActivate st, b.1 = CACHE_NAME) ∧
    (onActivate st).length ≤ 1 := by
  have heq := onActivate_eq_filter st
  have hall : ∀ b ∈ onActivate st, b.1 = CACHE_NAME := by
    intro b hb
    rw [heq] at hb
    exact of_decide_eq_true (List.mem_filter.mp hb).2
  refine ⟨heq, hall, ?_⟩
  have hsub : (onActivate st).Sublist st := heq ▸ List.filter_sublist st
  have hnodup : (cacheKeys (onActivate st)).Nodup := h.sublist (hsub.map Prod.fst)
  rcases hact : onActivate st with _ | ⟨x, _ | ⟨y, tl⟩⟩
  · simp
  · simp
  · exfalso
    have hx : x.1 = CACHE_NAME := hall x (by rw [hact]; exact List.mem_cons_self _ _)
    have hy : y.1 = CACHE_NAME := hall y (by rw [hact]; simp)
    rw [hact] at hnodup
    simp [cacheKeys, List.nodup_cons, hx, hy] at hnodup

/-- C1 witness: a two-bucket storage with a stale generation. -/
theorem activate_single_generation_witness :
    onActivate [(CACHE_NAME, ([] : Bucket)), ("angaza-creatives-v0", [])]
      = List.filter (fun b => b.1 = CACHE_NAME)
          [(CACHE_NAME, ([] : Bucket)), ("angaza-creatives-v0", [])] ∧
    (∀ b ∈ onActivate [(CACHE_NAME, ([] : Bucket)), ("angaza-creatives-v0", [])],
      b.1 = CACHE_NAME) ∧
    (onActivate [(CACHE_NAME, ([] : Bucket)), ("angaza-creatives-v0", [])]).length ≤ 1 :=
  activate_single_generation _ (by decide)

/-- C2 counterexample: with three buckets where the deletion of
`angaza-creatives-v0` settles at time 5 and another deletion rejects at
time 0, the activate handler's `Promise.all` promise rejects at time 0 —
it neither waits for every deletion to settle nor completes
successfully, contradicting the claim as stated. -/
theorem activate_settle_counterexample :
    (activateSettle
        [(CACHE_NAME, []), ("angaza-creatives-v0", []), ("old-cache", [])]
        (fun n => if n = "angaza-creatives-v0" then ⟨5, true⟩ else ⟨0, false⟩)).ok = false ∧
    (activateSettle
        [(CACHE_NAME, []), ("angaza-creatives-v0", []), ("old-cache", [])]
        (fun n => if n = "angaza-creatives-v0" then ⟨5, true⟩ else ⟨0, false⟩)).time
      < ((fun n => if n = "angaza-creatives-v0" then (⟨5, true⟩ : PSettle) else ⟨0, false⟩)
          "angaza-creatives-v0").time ∧
    "angaza-creatives-v0" ∈ cacheKeys
        [(CACHE_NAME, []), ("angaza-creatives-v0", []), ("old-cache", [])] ∧
    ¬ "angaza-creatives-v0" = CACHE_NAME := by
  decide

/-- C2 (amended): the activate handler uses `Promise.all` with no
`catch`, so: when every issued deletion fulfils, the phase's promise
fulfils and settles no earlier than any deletion; but when any issued
deletion rejects, the phase's promise rejects (at the first rejection,
hence possibly before slower deletions settle — the other deletions
themselves are unaffected, their outcomes being independent of the
combined promise). -/
theorem activate_settle_amended (st : CacheStorage) (del : String → PSettle) :
    ((∀ n ∈ cacheKeys st, ¬ n = CACHE_NAME → (del n).ok = true) →
      (activateSettle st del).ok = true ∧
      ∀ n ∈ cacheKeys st, ¬ n = CACHE_NAME →
        (del n).time ≤ (activateSettle st del).time) ∧
    ((∃ n ∈ cacheKeys st, ¬ n = CACHE_NAME ∧ (del n).ok = false) →
      (activateSettle st del).ok = false) := by
  constructor
  · intro h
    have hall : ∀ o ∈ (cacheKeys st).map
        (fun name => if name ≠ CACHE_NAME then del name else ⟨0, true⟩), o.ok = true := by
      intro o ho
      rcases List.mem_map.mp ho with ⟨n, hn, rfl⟩
      by_cases hc : n = CACHE_NAME
      · rw [if_neg (by simpa using hc)]
      · rw [if_pos hc]
        exact h n hn hc
    obtain ⟨hok, hle⟩ := promiseAll_fulfil _ hall
    refine ⟨hok, fun n hn hnc => ?_⟩
    have hmem : (if n ≠ CACHE_NAME then del n else ⟨0, true⟩) ∈ (cacheKeys st).map
        (fun name => if name ≠ CACHE_NAME then del name else ⟨0, true⟩) :=
      List.mem_map.mpr ⟨n, hn, rfl⟩
    have := hle _ hmem
    rwa [if_pos hnc] at this
  · rintro ⟨n, hn, hnc, hok⟩
    refine promiseAll_reject _ ⟨_, List.mem_map.mpr ⟨n, hn, rfl⟩, ?_⟩
    rw [if_pos hnc]
    exact hok

/-- C2 witness: two buckets, the single stale deletion fulfils at time 3;
the activate promise fulfils and settles no earlier than time 3. -/
theorem activate_settle_amended_witness :
    (activateSettle [(CACHE_NAME, []), ("angaza-creatives-v0", [])]
        (fun _ => ⟨3, true⟩)).ok = true ∧
    ∀ n ∈ cacheKeys [(CACHE_NAME, []), ("angaza-creatives-v0", [])],
      ¬ n = CACHE_NAME →
        ((fun _ => (⟨3, true⟩ : PSettle)) n).time ≤
          (activateSettle [(CACHE_NAME, []), ("angaza-creatives-v0", [])]
            (fun _ => ⟨3, true⟩)).time :=
  (activate_settle_amended [(CACHE_NAME, []), ("angaza-creatives-v0", [])]
    (fun _ => ⟨3, true⟩)).1 (by decide)

/-- C6: the install handler's `waitUntil` promise always fulfils (the
trailing `catch` swallows any failure); and when any single seed fetch
fails, the uncaught `open`-then-`addAll` promise rejects as a group and
the storage effect is only that the generation bucket was opened. -/
theorem install_never_rejects (net : String → Option Response) (st : CacheStorage) :
    (onInstall net st).1 = true ∧
    ((∃ u ∈ urlsToCache, seedFetch net u = none) →
      (installAttempt net st).1 = false ∧
      (onInstall net st).2 = cachesOpen st CACHE_NAME) := by
  constructor
  · rfl
  · intro h
    have hfail : seedFetchAll net = none := seedFetchList_of_fail net urlsToCache h
    constructor
    · simp [installAttempt, hfail]
    · simp [onInstall, installAttempt, hfail]

/-- C6 witness: a network where only the root document is reachable. -/
theorem install_never_rejects_witness :
    (onInstall netRootOnly []).1 = true ∧
    ((installAttempt netRootOnly []).1 = false ∧
      (onInstall netRootOnly []).2 = cachesOpen [] CACHE_NAME) :=
  ⟨(install_never_rejects netRootOnly []).1,
   (install_never_rejects netRootOnly []).2 (by decide)⟩

/-- C9: a request whose method is not GET is not intercepted: the fetch
handler returns without responding and the cache storage is unchanged. -/
theorem fetch_non_get_bypass (req : Request) (net : Option Response)
    (st : CacheStorage) (h : ¬ req.method = "GET") :
    onFetch req net st = (.bypassed, st) := by
  unfold onFetch onFetchStore
  rw [if_pos h]

/-- C9 witness: a POST request against a populated bucket. -/
theorem fetch_non_get_bypass_witness :
    onFetch ⟨"POST", "/api/set-currency/", "no-cors"⟩ (some ⟨200, "ok"⟩)
        [(CACHE_NAME, [("/", ⟨200, "home"⟩)])]
      = (.bypassed, [(CACHE_NAME, [("/", ⟨200, "home"⟩)])]) :=
  fetch_non_get_bypass _ _ _ (by decide)

/-- C3: for a GET request to a static-path URL whose network fetch
succeeds with status 200, the handler responds with the live network
response, and the current-generation bucket afterwards holds an entry
keyed by the request URL equal to that response. -/
theorem fetch_static_network_first (req : Request) (resp : Response)
    (st : CacheStorage) (hm : req.method = "GET")
    (he : strStarts req.url "chrome-extension://" = false)
    (hs : strIncludes req.url "/static/" = true) (h200 : resp.status = 200) :
    (onFetch req (some resp) st).1 = .responded (some resp) ∧
    bucketLookup (getBucket (onFetch req (some resp) st).2 CACHE_NAME) req.url
      = some resp := by
  constructor
  · simp [onFetch, onFetchStore, hm, he, hs, h200]
  · simp [onFetch, onFetchStore, hm, he, hs, h200, bucketLookup_cachesPut_self]

/-- C3 witness: a static stylesheet request with a fresh 200 response. -/
theorem fetch_static_network_first_witness :
    (onFetch ⟨"GET", "/static/css/style.css", "no-cors"⟩ (some ⟨200, "body"⟩) []).1
      = .responded (some ⟨200, "body"⟩) ∧
    bucketLookup
        (getBucket (onFetch ⟨"GET", "/static/css/style.css", "no-cors"⟩
          (some ⟨200, "body"⟩) []).2 CACHE_NAME)
        "/static/css/style.css"
      = some ⟨200, "body"⟩ :=
  fetch_static_network_first _ _ _ rfl (by decide) (by decide) rfl

/-- C4: a network response is written to the current-generation bucket
exactly when its status is 200 and the URL passes the static test; in
every other case the storage is left unchanged, and in all cases the
live response itself is returned. -/
theorem fetch_cache_write_iff (req : Request) (resp : Response)
    (st : CacheStorage) (hm : req.method = "GET")
    (he : strStarts req.url "chrome-extension://" = false) :
    ((resp.status = 200 ∧ strIncludes req.url "/static/" = true) →
      onFetch req (some resp) st
        = (.responded (some resp), cachesPut st CACHE_NAME req.url resp)) ∧
    (¬ (resp.status = 200 ∧ strIncludes req.url "/static/" = true) →
      onFetch req (some resp) st = (.responded (some resp), st)) := by
  constructor
  · rintro ⟨h200, hs⟩
    simp [onFetch, onFetchStore, hm, he, h200, hs]
  · intro h
    have h1 : ¬ req.method ≠ "GET" := by simp [hm]
    have h2 : ¬ strStarts req.url "chrome-extension://" = true := by simp [he]
    simp only [onFetch, onFetchStore, if_neg h1, if_neg h2, if_neg h]

/-- C4 witness: a 404 response to a static URL is passed through and not
stored (and a 200 static response is stored). -/
theorem fetch_cache_write_iff_witness :
    ((((⟨404, "missing"⟩ : Response).status = 200 ∧
        strIncludes "/static/js/main.js" "/static/" = true) →
      onFetch ⟨"GET", "/static/js/main.js", "no-cors"⟩ (some ⟨404, "missing"⟩) []
        = (.responded (some ⟨404, "missing"⟩),
            cachesPut [] CACHE_NAME "/static/js/main.js" ⟨404, "missing"⟩)) ∧
    (¬ ((⟨404, "missing"⟩ : Response).status = 200 ∧
        strIncludes "/static/js/main.js" "/static/" = true) →
      onFetch ⟨"GET", "/static/js/main.js", "no-cors"⟩ (some ⟨404, "missing"⟩) []
        = (.responded (some ⟨404, "missing"⟩), []))) ∧
    ¬ ((⟨404, "missing"⟩ : Response).status = 200 ∧
        strIncludes "/static/js/main.js" "/static/" = true) :=
  ⟨fetch_cache_write_iff ⟨"GET", "/static/js/main.js", "no-cors"⟩ ⟨404, "missing"⟩ []
      rfl (by decide),
   by decide⟩

/-- C5: on network failure the result follows the three-step fallback on
the current-generation bucket: a matching stored entry is returned;
otherwise a navigation-mode request gets the stored entry for `/` (if
any); otherwise no response is produced. -/
theorem fetch_offline_fallback (req : Request) (bucket : Bucket)
    (hm : req.method = "GET")
    (he : strStarts req.url "chrome-extension://" = false) :
    (∀ r, bucketLookup bucket req.url = some r →
      onFetch req none [(CACHE_NAME, bucket)]
        = (.responded (some r), [(CACHE_NAME, bucket)])) ∧
    (bucketLookup bucket req.url = none → req.mode = "navigate" →
      onFetch req none [(CACHE_NAME, bucket)]
        = (.responded (bucketLookup bucket "/"), [(CACHE_NAME, bucket)])) ∧
    (bucketLookup bucket req.url = none → ¬ req.mode = "navigate" →
      onFetch req none [(CACHE_NAME, bucket)]
        = (.responded none, [(CACHE_NAME, bucket)])) := by
  have hmatch : ∀ k, cachesMatch [(CACHE_NAME, bucket)] k = bucketLookup bucket k := by
    intro k
    cases h : bucketLookup bucket k <;>
      simp [cachesMatch, List.findSome?_cons, h]
  refine ⟨?_, ?_, ?_⟩
  · intro r hr
    simp [onFetch, onFetchStore, hm, he, hmatch, hr]
  · intro hnone hnav
    simp [onFetch, onFetchStore, hm, he, hmatch, hnone, hnav]
  · intro hnone hnav
    simp [onFetch, onFetchStore, hm, he, hmatch, hnone, hnav]

/-- C5 witness: an offline navigation with no matching entry receives
the stored root document. -/
theorem fetch_offline_fallback_witness :
    onFetch ⟨"GET", "/wishlist", "navigate"⟩ none
        [(CACHE_NAME, [("/", ⟨200, "home"⟩)])]
      = (.responded (bucketLookup [("/", ⟨200, "home"⟩)] "/"),
          [(CACHE_NAME, [("/", ⟨200, "home"⟩)])]) :=
  (fetch_offline_fallback ⟨"GET", "/wishlist", "navigate"⟩ [("/", ⟨200, "home"⟩)]
    rfl (by decide)).2.1 (by decide) rfl

/-- C7: the opportunistic store is fire-and-forget: the handler's
response never depends on whether the store succeeds, a failed store
leaves the storage untouched, and when the store does run it writes the
duplicate — an entry equal to the very response handed back. -/
theorem fetch_store_fire_and_forget (b : Bool) (req : Request)
    (net : Option Response) (st : CacheStorage) :
    (onFetchStore b req net st).1 = (onFetch req net st).1 ∧
    (onFetchStore false req net st).2 = st ∧
    (∀ resp, net = some resp → req.method = "GET" →
      strStarts req.url "chrome-extension://" = false →
      resp.status = 200 → strIncludes req.url "/static/" = true →
      (onFetchStore false req net st).1 = .responded (some resp) ∧
      bucketLookup (getBucket (onFetch req net st).2 CACHE_NAME) req.url
        = some resp) := by
  refine ⟨?_, ?_, ?_⟩
  · unfold onFetch onFetchStore
    by_cases h1 : req.method ≠ "GET"
    · rw [if_pos h1, if_pos h1]
    · rw [if_neg h1, if_neg h1]
      by_cases h2 : strStarts req.url "chrome-extension://" = true
      · rw [if_pos h2, if_pos h2]
      · rw [if_neg h2, if_neg h2]
        cases net with
        | none => rfl
        | some resp =>
          dsimp only
          by_cases h3 : resp.status = 200 ∧ strIncludes req.url "/static/" = true
          · rw [if_pos h3, if_pos h3]
          · rw [if_neg h3, if_neg h3]
  · unfold onFetchStore
    by_cases h1 : req.method ≠ "GET"
    · rw [if_pos h1]
    · rw [if_neg h1]
      by_cases h2 : strStarts req.url "chrome-extension://" = true
      · rw [if_pos h2]
      · rw [if_neg h2]
        cases net with
        | none =>
          dsimp only
          cases h : cachesMatch st req.url with
          | some r => rfl
          | none =>
            by_cases hnav : req.mode = "navigate"
            · rw [if_pos hnav]
            · rw [if_neg hnav]
        | some resp =>
          dsimp only
          by_cases h3 : resp.status = 200 ∧ strIncludes req.url "/static/" = true
          · rw [if_pos h3]
            rfl
          · rw [if_neg h3]
  · rintro resp rfl hm he h200 hs
    constructor
    · simp [onFetchStore, hm, he, h200, hs]
    · simp [onFetch, onFetchStore, hm, he, h200, hs, bucketLookup_cachesPut_self]

/-- C7 witness: a static script fetch; with the store failing, the
response is unchanged and the storage untouched. -/
theorem fetch_store_fire_and_forget_witness :
    (onFetchStore false ⟨"GET", "/static/js/main.js", "no-cors"⟩
        (some ⟨200, "js"⟩) []).1
      = (onFetch ⟨"GET", "/static/js/main.js", "no-cors"⟩ (some ⟨200, "js"⟩) []).1 ∧
    (onFetchStore false ⟨"GET", "/static/js/main.js", "no-cors"⟩
        (some ⟨200, "js"⟩) []).2 = [] ∧
    ((onFetchStore false ⟨"GET", "/static/js/main.js", "no-cors"⟩
        (some ⟨200, "js"⟩) []).1 = .responded (some ⟨200, "js"⟩) ∧
      bucketLookup
          (getBucket (onFetch ⟨"GET", "/static/js/main.js", "no-cors"⟩
            (some ⟨200, "js"⟩) []).2 CACHE_NAME)
          "/static/js/main.js"
        = some ⟨200, "js"⟩) :=
  ⟨(fetch_store_fire_and_forget false _ _ _).1,
   (fetch_store_fire_and_forget false _ _ _).2.1,
   (fetch_store_fire_and_forget false ⟨"GET", "/static/js/main.js", "no-cors"⟩
      (some ⟨200, "js"⟩) []).2.2 ⟨200, "js"⟩ rfl rfl (by decide) rfl (by decide)⟩

/-- C10: the static test is a substring check on the whole URL string:
a 200 response to a GET request whose URL contains `/static/` only
outside its path component is still stored in the bucket. -/
theorem fetch_static_check_full_url (req : Request) (resp : Response)
    (st : CacheStorage) (hm : req.method = "GET")
    (he : strStarts req.url "chrome-extension://" = false)
    (hin : strIncludes req.url "/static/" = true)
    (hpath : strIncludes (urlPath req.url) "/static/" = false)
    (h200 : resp.status = 200) :
    onFetch req (some resp) st
      = (.responded (some resp), cachesPut st CACHE_NAME req.url resp) ∧
    bucketLookup (getBucket (onFetch req (some resp) st).2 CACHE_NAME) req.url
      = some resp := by
  constructor
  · simp [onFetch, onFetchStore, hm, he, hin, h200]
  · simp [onFetch, onFetchStore, hm, he, hin, h200, bucketLookup_cachesPut_self]

/-- C10 witness: `/static/` occurs only in the query string, yet the
200 response is cached. -/
theorem fetch_static_check_full_url_witness :
    onFetch ⟨"GET", "/cart?banner=/static/promo.png", "no-cors"⟩
        (some ⟨200, "page"⟩) []
      = (.responded (some ⟨200, "page"⟩),
          cachesPut [] CACHE_NAME "/cart?banner=/static/promo.png" ⟨200, "page"⟩) ∧
    bucketLookup
        (getBucket (onFetch ⟨"GET", "/cart?banner=/static/promo.png", "no-cors"⟩
          (some ⟨200, "page"⟩) []).2 CACHE_NAME)
        "/cart?banner=/static/promo.png"
      = some ⟨200, "page"⟩ :=
  fetch_static_check_full_url _ _ _ rfl (by decide) (by decide) (by decide) rfl

/-- C8 counterexample: on a network where the root document is reachable
but a seed asset is not, running install twice from empty storage leaves
the (single) generation bucket empty — it does not contain the reachable
seed asset `/`, because `cache.addAll` fails as an atomic group. -/
theorem install_idempotent_counterexample :
    seedFetch netRootOnly "/" = some ⟨200, "home"⟩ ∧
    seedFetch netRootOnly "/static/css/style.css" = none ∧
    cacheKeys (onInstall netRootOnly (onInstall netRootOnly []).2).2 = [CACHE_NAME] ∧
    bucketLookup
        (getBucket (onInstall netRootOnly (onInstall netRootOnly []).2).2 CACHE_NAME)
        "/" = none := by
  decide

/-- C8 (amended): when every seed asset is reachable at install time,
running install twice against empty storage leaves exactly one bucket,
named with the current generation name, containing exactly the seed
responses; the second install changes nothing. (When any seed fetch
fails, the atomic `addAll` group stores nothing — see the
counterexample.) -/
theorem install_idempotent_amended (net : String → Option Response)
    (h : ∀ u ∈ urlsToCache, (seedFetch net u).isSome) :
    cacheKeys (onInstall net []).2 = [CACHE_NAME] ∧
    (onInstall net (onInstall net []).2).2 = (onInstall net []).2 ∧
    (∀ u ∈ urlsToCache,
      bucketLookup (getBucket (onInstall net (onInstall net []).2).2 CACHE_NAME) u
        = seedFetch net u) := by
  obtain ⟨r1, h1⟩ := Option.isSome_iff_exists.mp (h "/" (by simp [urlsToCache]))
  obtain ⟨r2, h2⟩ :=
    Option.isSome_iff_exists.mp (h "/static/css/style.css" (by simp [urlsToCache]))
  obtain ⟨r3, h3⟩ :=
    Option.isSome_iff_exists.mp (h "/static/js/main.js" (by simp [urlsToCache]))
  obtain ⟨r4, h4⟩ :=
    Option.isSome_iff_exists.mp (h "/static/images/logo.jpeg" (by simp [urlsToCache]))
  have hseed : seedFetchAll net
      = some [("/", r1), ("/static/css/style.css", r2),
              ("/static/js/main.js", r3), ("/static/images/logo.jpeg", r4)] := by
    simp [seedFetchAll, seedFetchList, urlsToCache, h1, h2, h3, h4]
  have hst1 : (onInstall net []).2
      = [(CACHE_NAME, [("/", r1), ("/static/css/style.css", r2),
          ("/static/js/main.js", r3), ("/static/images/logo.jpeg", r4)])] := by
    simp [onInstall, installAttempt, hseed, cachesPutAll, cachesPut, cachesOpen,
      bucketPut, CACHE_NAME]
  have hst2 : (onInstall net (onInstall net []).2).2 = (onInstall net []).2 := by
    rw [hst1]
    simp [onInstall, installAttempt, hseed, cachesPutAll, cachesPut, cachesOpen,
      bucketPut, CACHE_NAME]
  refine ⟨by rw [hst1]; rfl, hst2, ?_⟩
  intro u hu
  rw [hst2, hst1]
  simp only [urlsToCache, List.mem_cons, List.not_mem_nil, or_false] at hu
  rcases hu with rfl | rfl | rfl | rfl
  · simp [getBucket, bucketLookup, CACHE_NAME, h1]
  · simp [getBucket, bucketLookup, CACHE_NAME, h2]
  · simp [getBucket, bucketLookup, CACHE_NAME, h3]
  · simp [getBucket, bucketLookup, CACHE_NAME, h4]

/-- C8 witness: the fully reachable seed network. -/
theorem install_idempotent_amended_witness :
    cacheKeys (onInstall netSeedAll []).2 = [CACHE_NAME] ∧
    (onInstall netSeedAll (onInstall netSeedAll []).2).2 = (onInstall netSeedAll []).2 ∧
    (∀ u ∈ urlsToCache,
      bucketLookup
          (getBucket (onInstall netSeedAll (onInstall netSeedAll []).2).2 CACHE_NAME) u
        = seedFetch netSeedAll u) :=
  install_idempotent_amended netSeedAll (by decide)
